import Mathlib

/-!
# Alterrain server core — shallow embedding

A shallow embedding of the authoritative game-server core of the Alterrain
repository (`src/app/game/world.js`, the server/tree modules under
`src/unnamed/part_000`), together with theorems settling the frozen claims
about it.

JavaScript conventions modelled explicitly:
* array indexing out of range yields `undefined`, modelled as `Option.none`
  via `jsIndex`;
* property access on `undefined` throws a `TypeError`, modelled as
  `Except.error ()`;
* `&&` short-circuits;
* `x || d` evaluates to `d` exactly when `x` is falsy (for the numbers used
  here: when `x = 0`).
-/

deriving instance DecidableEq for Except

namespace Alterrain

/-- JS array read `l[i]`: `undefined` (`none`) for a negative or
out-of-range index. -/
def jsIndex {α : Type} (l : List α) (i : Int) : Option α :=
  if i < 0 then none else l.get? i.toNat

/-! ## World (`src/app/game/world.js`) -/

/-- The world state used by the passability and tile-mutation code:
`width`/`height` (`WorldConfig.WIDTH`/`HEIGHT`), the `tileMap` (tile-type
numbers; `initTilemap` comments: 0 = grass, 1 = sand, 2 = stone,
3 = water - can not pass) and the `objectMap` (sparse array of object-kind
numbers, 0 = trees; an empty cell is `undefined`, modelled `none`). -/
structure World where
  width : Nat
  height : Nat
  tileMap : List (List Nat)
  objectMap : List (List (Option Int))
deriving DecidableEq

/-- The shape `initTilemap`/`initObjectMap` establish (for the square
`WorldConfig` the generator assumes): `width` rows, each of length
`height`. -/
def WFWorld (w : World) : Prop :=
  w.tileMap.length = w.width ∧
  (∀ row ∈ w.tileMap, row.length = w.height) ∧
  w.objectMap.length = w.width ∧
  (∀ row ∈ w.objectMap, row.length = w.height)

instance (w : World) : Decidable (WFWorld w) := by
  unfold WFWorld; infer_instance

/-- Modelled from the spec: `TileData` lives in `shared/constant.js`, which
is not under `src/`. Per the spec's tile model and the `initTilemap`
comment (`3 = water - can not pass`), `TileData[t]` is the passage flag of
tile type `t`: `0` for the passable types grass/sand/stone, non-zero for
water; looking up an unrecognized (or `undefined`) tile id yields
`undefined` (`none`). -/
def TileData : Option Nat → Option Nat
  | some 0 => some 0
  | some 1 => some 0
  | some 2 => some 0
  | some 3 => some 1
  | _ => none

/-- `World.isValidTile(x, y)`:
`x >= 0 && x < this.width && y >= 0 && y < this.height`. -/
def World.isValidTile (w : World) (x y : Int) : Bool :=
  decide (0 ≤ x) && decide (x < (w.width : Int)) &&
    decide (0 ≤ y) && decide (y < (w.height : Int))

/-- The direction bitmask `(1 << (d / 2 - 1)) & 0x0f` computed by
`World.isPassable` for its two callees. For the RPG-style cardinal
directions 2/4/6/8 this agrees with the JS arithmetic; for other values the
JS `ToInt32`/shift coercions are not reproduced, which is immaterial
because `checkPassage` and `checkObject` never read their `bit`
parameter (visible in the source). -/
def dirBit (d : Int) : Int :=
  (((1 <<< ((d / 2 - 1).toNat % 32)) &&& 0x0f : Nat) : Int)

/-- `World.checkPassage(x, y, bit)`: reads `this.tileMap[x][y]` (a read on
an `undefined` row throws, modelled `Except.error ()`) and returns
`TileData[tile] === 0`. The `bit` parameter is unused in the source. -/
def World.checkPassage (w : World) (x y : Int) (bit : Int) : Except Unit Bool :=
  match jsIndex w.tileMap x with
  | none => Except.error ()
  | some row => Except.ok (TileData (jsIndex row y) == some 0)

/-- `World.checkObject(x, y, bit)`: reads `this.objectMap[x][y]` and
returns `obj >= 0` (`undefined >= 0` is `false` in JS). The `bit`
parameter is unused in the source. -/
def World.checkObject (w : World) (x y : Int) (bit : Int) : Except Unit Bool :=
  match jsIndex w.objectMap x with
  | none => Except.error ()
  | some row =>
    match jsIndex row y with
    | some (some n) => Except.ok (decide (0 ≤ n))
    | _ => Except.ok false

/-- `World.isPassable(x, y, d)`:
`this.checkPassage(x, y, bit) && !this.checkObject(x, y, bit)` with
`bit = (1 << (d / 2 - 1)) & 0x0f`, `&&` short-circuiting. -/
def World.isPassable (w : World) (x y d : Int) : Except Unit Bool := do
  let p ← w.checkPassage x y (dirBit d)
  if p then
    let o ← w.checkObject x y (dirBit d)
    pure (!o)
  else
    pure false

/-- The tile value the JS expression `this.tileMap[x][y]` would read (if it
reads anything), for stating where `changeTile` wrote. -/
def World.tileAt (w : World) (x y : Int) : Option Nat :=
  (jsIndex w.tileMap x).bind fun row => jsIndex row y

/-- One entry `[x, y, tileId]` of a `worldUpdate` payload's `tiles` list. -/
structure TileChange where
  x : Int
  y : Int
  tileId : Nat
deriving DecidableEq

/-- `World.changeTile(x, y, tileId)`: if `!this.isValidTile(x, y)` the
error is logged and the method returns (no mutation, no emission);
otherwise `this.tileMap[x][y] = tileId` and
`server.io.emit('worldUpdate', {tiles: [[x, y, tileId]]})`. The returned
`Option` is the emitted `worldUpdate` tile list (`none` = no emission).
The row is fetched with a `[]` default for totality; under `WFWorld` a
valid `x` always has a row, matching the JS write. -/
def World.changeTile (w : World) (x y : Int) (tileId : Nat) :
    World × Option (List TileChange) :=
  if !(w.isValidTile x y) then
    (w, none)
  else
    let row := (w.tileMap.get? x.toNat).getD []
    ({ w with tileMap := w.tileMap.set x.toNat (row.set y.toNat tileId) },
      some [⟨x, y, tileId⟩])

/-! ## Tree (`src/unnamed/part_000`, `Tree` class) -/

/-- The `Tree` state relevant to interaction: `durability`, initialized by
the constructor to `util.integerInRange(1, 4)` and decremented by
`onInteraction`. (The loot tile, `Tiles.STONE`, is fixed and left
implicit.) -/
structure Tree where
  durability : Int
deriving DecidableEq

/-- The player state `Tree.onInteraction` touches: the count of loot items
held (`player.gainItem(this.loot, n)` adds `n` of the loot tile). -/
structure TPlayer where
  inventory : Nat
deriving DecidableEq

/-- `Tree.onInteraction(player)`: `this.durability--;` then, if
`this.durability <= 0`, `player.gainItem(this.loot, util.integerInRange(1, 2))`.
`roll` is the value of `util.integerInRange(1, 2)` for this call. -/
def Tree.onInteraction (t : Tree) (p : TPlayer) (roll : Nat) : Tree × TPlayer :=
  let d := t.durability - 1
  if d ≤ 0 then (⟨d⟩, ⟨p.inventory + roll⟩) else (⟨d⟩, p)

/-- Repeated calls of `Tree.onInteraction`, one per entry of `rolls`. -/
def Tree.interactRun (t : Tree) (p : TPlayer) (rolls : List Nat) : Tree × TPlayer :=
  rolls.foldl (fun s r => Tree.onInteraction s.1 s.2 r) (t, p)

/-! ## Server (`src/unnamed/part_000`, `Server` class) -/

/-- Modelled from the spec: the `Commands` enum lives in
`shared/constant.js`, which is not under `src/`. Per the spec's inbound
envelope (`Move=1, AlterTile=2, Communicate=3, Interact=4`) and the
matching comments in `src/public/js/client.js`
(`MOVEMENT: 1, ALTER_TILE: 2, COMMUNICATION: 3`). -/
inductive CommandTag
  | move
  | alterTile
  | communicate
  | interact
deriving DecidableEq

/-- The `switch (cmd.type)` of `Server.onReceivedInput`: which
`CommandFactory` constructor a numeric `type` selects; `none` is the
`default` branch (`logger.error` then `return`). -/
def classifyCommand (t : Int) : Option CommandTag :=
  if t = 1 then some CommandTag.move
  else if t = 2 then some CommandTag.alterTile
  else if t = 3 then some CommandTag.communicate
  else if t = 4 then some CommandTag.interact
  else none

/-- The constructor line
`this.timeoutInterval = ServerConfig.TIMEOUT_INTERVAL || 40;`:
JS `||` takes the right operand exactly when the left is falsy, which for
the numeric `configured` value means `configured = 0`. -/
def effectiveTimeoutInterval (configured : Int) : Int :=
  if configured = 0 then 40 else configured

/-- `Server.resetIdleTimeout(socket)`: any pending timer is cleared
(`clearTimeout`), then a timeout callback is scheduled
`timeoutInterval * 1000` ms from now — but only when
`this.timeoutInterval > 0`. The result is the socket's scheduled
idle-timeout firing time (`none` = no timer pending). -/
def resetIdleTimeout (timeoutInterval : Int) (now : Int) (old : Option Int) :
    Option Int :=
  if timeoutInterval > 0 then some (now + timeoutInterval * 1000) else none

/-- The per-connection state `Server.onReceivedInput` can touch: this
player's input queue, the socket's idle-timeout timer, and whether the
connection is open. -/
structure ConnState where
  queue : List CommandTag
  idleDeadline : Option Int
  connOpen : Bool
deriving DecidableEq

/-- `Server.onReceivedInput(cmd, socket, playerId)`: looks the player up
(no state change), calls `this.resetIdleTimeout(socket)`, then switches on
`cmd.type`; a recognized type builds a command and
`this.queueInputForPlayer(command, playerId)` pushes it onto the player's
queue, the `default` branch logs `Invalid Command` and returns. -/
def onReceivedInput (timeoutInterval now : Int) (cmdType : Int)
    (s : ConnState) : ConnState :=
  let s1 : ConnState :=
    { s with idleDeadline := resetIdleTimeout timeoutInterval now s.idleDeadline }
  match classifyCommand cmdType with
  | some tag => { s1 with queue := s1.queue ++ [tag] }
  | none => s1

/-! ### Tick step and queue drain (`Server.step`) -/

/-- The simulation state `Server.step` drains: the applied-command trace of
the world (each queued command is a closure run by
`World.processInput`, i.e. `command()`; `applied` records them in
execution order) and `playerInputQueues` in map-insertion order.
`World.step(dt)` (per-entity `character.update()`) never reads or writes
`playerInputQueues`, so it is not represented. -/
structure SimServer (α : Type) where
  applied : List α
  playerInputQueues : List (Nat × List α)

/-- `World.processInput(command)` — runs the command; the trace records
it. -/
def processInput {α : Type} (applied : List α) (cmd : α) : List α :=
  applied ++ [cmd]

/-- `Server.step(dt)`: `this.playerInputQueues.forEach((commands, id) => {
commands.forEach((cmd) => this.world.processInput(cmd));
commands.length = 0; })` — every queue is replayed in order and cleared. -/
def serverStep {α : Type} (s : SimServer α) : SimServer α :=
  { applied :=
      s.playerInputQueues.foldl (fun w q => q.2.foldl processInput w) s.applied,
    playerInputQueues := s.playerInputQueues.map (fun q => (q.1, [])) }

/-! ### Spawn placement (`Server.onPlayerJoinWorld`) -/

/-- The spawn search of `Server.onPlayerJoinWorld`:
`do { newX = …random…; newY = …random… } while (!this.world.isPassable(newX, newY, 2));`
`picks i` is the i-th random draw; `fuel` bounds how many iterations we
unroll: `Except.ok none` means the loop is still running after `fuel`
iterations, `Except.ok (some (x, y))` that it stopped at a passable pick,
`Except.error ()` that `isPassable` threw. -/
def spawnLoop (w : World) (picks : Nat → Int × Int) :
    Nat → Nat → Except Unit (Option (Int × Int))
  | _, 0 => Except.ok none
  | i, fuel + 1 => do
    let x := (picks i).1
    let y := (picks i).2
    let p ← w.isPassable x y 2
    if p then pure (some (x, y)) else spawnLoop w picks (i + 1) fuel

/-- The spawn search terminates on draw sequence `picks`: after some finite
number of iterations it is no longer looping (it either found a passable
tile or threw). -/
def SpawnTerminates (w : World) (picks : Nat → Int × Int) : Prop :=
  ∃ n, spawnLoop w picks 0 n ≠ Except.ok none

/-- A well-formed 2×2 world of water tiles with no objects: no passable
tile exists anywhere. -/
def allWaterWorld : World :=
  ⟨2, 2, [[3, 3], [3, 3]], [[none, none], [none, none]]⟩

/-- A well-formed 1×1 world with a grass tile and no objects: `(0, 0)` is
passable. -/
def grassWorld : World :=
  ⟨1, 1, [[0]], [[none]]⟩

/-! ### Broadcast tick (`Server.start` / `Server.sendOutgoingBuffer`) -/

/-- One payload pushed per tick with live connections:
`{ t: this.gameTick, d: describeAll(this.world.players) }` (`d` abstracted
as a number standing for the serialized player-state string). -/
structure TickPayload where
  t : Nat
  d : Nat
deriving DecidableEq

/-- The server state read by one firing of the `setInterval` body in
`Server.start`: the live-connection count (`connectedPlayers.size`), the
`outgoingBuffer`, the `gameTick` counter, and an abstract serialization of
the current players (`describeAll(this.world.players)`). -/
structure TickServer where
  connectedCount : Nat
  outgoingBuffer : List TickPayload
  gameTick : Nat
  playersDesc : Nat
deriving DecidableEq

/-- One firing of the interval body in `Server.start`: run `this.step(dt)`
(does not touch the fields modelled here), then —
`if (this.connectedPlayers.size !== 0)` — push
`{t: gameTick, d: describeAll(players)}` onto `outgoingBuffer` and call
`this.sendOutgoingBuffer()`, which `io.emit`s the buffer and clears it;
finally `this.gameTick++`. The returned `Option` is the buffer handed to
`io.emit('update', …)` this tick (`none` = no emission). -/
def gameTickStep (s : TickServer) : TickServer × Option (List TickPayload) :=
  if s.connectedCount ≠ 0 then
    let buf := s.outgoingBuffer ++ [⟨s.gameTick, s.playersDesc⟩]
    ({ s with outgoingBuffer := [], gameTick := s.gameTick + 1 }, some buf)
  else
    ({ s with gameTick := s.gameTick + 1 }, none)

/-! ### Connection registry / id assignment (`Server.onPlayerConnected`) -/

/-- The registry state of `Server`: `lastPlayerID` (starts at 0),
`connectedPlayers` keyed by `socket.id`, and the per-player input
queues. -/
structure RegServer where
  lastPlayerID : Nat
  connectedPlayers : List (String × Nat)
  playerInputQueues : List (Nat × List CommandTag)
deriving DecidableEq

/-- The fresh server of the constructor: `this.lastPlayerID = 0`, empty
maps. -/
def initialRegServer : RegServer :=
  ⟨0, [], []⟩

/-- `Server.onPlayerConnected(socket)` (registry part):
`let playerId = ++this.lastPlayerID;` then
`this.playerInputQueues.set(playerId, [])` and
`this.connectedPlayers.set(socket.id, {…, playerId})`. Returns the
assigned id. -/
def onPlayerConnected (s : RegServer) (sid : String) : RegServer × Nat :=
  let playerId := s.lastPlayerID + 1
  ({ lastPlayerID := playerId,
     connectedPlayers := s.connectedPlayers ++ [(sid, playerId)],
     playerInputQueues := s.playerInputQueues ++ [(playerId, [])] },
    playerId)

/-- `Server.onPlayerDisconnected(socket)` (registry part):
`this.connectedPlayers.delete(socket.id)` — removes the entry for that
socket id (a JS `Map` holds at most one), leaving `lastPlayerID` and
`playerInputQueues` untouched. -/
def onPlayerDisconnected (s : RegServer) (sid : String) : RegServer :=
  { s with
    connectedPlayers := s.connectedPlayers.eraseP (fun e => e.1 == sid) }

/-- A connect / disconnect history, interleaved arbitrarily. -/
inductive NetEvent
  | connect (sid : String)
  | disconnect (sid : String)

/-- Run a history of connections and disconnections, collecting the entity
ids assigned at each connect, in order. -/
def runEvents (s : RegServer) : List NetEvent → RegServer × List Nat
  | [] => (s, [])
  | NetEvent.connect sid :: evs =>
    let c := onPlayerConnected s sid
    let r := runEvents c.1 evs
    (r.1, c.2 :: r.2)
  | NetEvent.disconnect sid :: evs => runEvents (onPlayerDisconnected s sid) evs

/-- Number of connects in a history. -/
def countConnects : List NetEvent → Nat
  | [] => 0
  | NetEvent.connect _ :: evs => countConnects evs + 1
  | NetEvent.disconnect _ :: evs => countConnects evs

/-! ## Helper lemmas -/

theorem jsIndex_neg {α : Type} (l : List α) (i : Int) (h : i < 0) :
    jsIndex l i = none := by
  simp [jsIndex, h]

theorem jsIndex_ge {α : Type} (l : List α) (i : Int)
    (h : (l.length : Int) ≤ i) : jsIndex l i = none := by
  unfold jsIndex
  have h0 : ¬ i < 0 := by omega
  rw [if_neg h0]
  exact List.get?_eq_none.mpr (by omega)

theorem jsIndex_isSome {α : Type} (l : List α) (i : Int) (h0 : 0 ≤ i)
    (h1 : i < (l.length : Int)) :
    ∃ a, jsIndex l i = some a ∧ a ∈ l := by
  have hlt : i.toNat < l.length := by omega
  refine ⟨l.get ⟨i.toNat, hlt⟩, ?_, List.get_mem l i.toNat hlt⟩
  unfold jsIndex
  rw [if_neg (by omega)]
  exact List.get?_eq_get hlt

theorem jsIndex_set_ne {α : Type} (l : List α) (n : Nat) (v : α) (i : Int)
    (h : i ≠ (n : Int)) : jsIndex (l.set n v) i = jsIndex l i := by
  unfold jsIndex
  by_cases h0 : i < 0
  · rw [if_pos h0, if_pos h0]
  · rw [if_neg h0, if_neg h0, List.get?_eq_getElem?, List.get?_eq_getElem?,
      List.getElem?_set_ne (show n ≠ i.toNat by omega)]

theorem jsIndex_set_self {α : Type} (l : List α) (n : Nat) (v : α) (i : Int)
    (hi : i = (n : Int)) (hlt : n < l.length) :
    jsIndex (l.set n v) i = some v := by
  subst hi
  unfold jsIndex
  rw [if_neg (by omega), List.get?_eq_getElem?,
    show ((n : Int)).toNat = n by omega]
  exact List.getElem?_set_eq_of_lt v hlt

theorem isValidTile_iff (w : World) (x y : Int) :
    w.isValidTile x y = true ↔
      0 ≤ x ∧ x < (w.width : Int) ∧ 0 ≤ y ∧ y < (w.height : Int) := by
  simp [World.isValidTile, and_assoc]

/-! ## Claim C1 -/

/-- Claim C1, counterexample: the claim says `isPassable` returns `false`
for every out-of-bounds coordinate rather than throwing, but at
`(x, y) = (-1, 0)` (x < 0) the read `this.tileMap[-1][0]` is a property
access on `undefined` and throws a `TypeError` (`Except.error ()`), for a
concrete well-formed world. -/
theorem isPassable_oob_counterexample :
    World.isPassable grassWorld (-1) 0 2 = Except.error () ∧
    ¬ World.isPassable grassWorld (-1) 0 2 = Except.ok false := by
  decide

/-- Claim C1, amended: for a well-formed world and an out-of-bounds
`(x, y)`, `isPassable` never returns `true`; specifically it returns
`false` when `x` is in range (so `y` is out of range: the tile read yields
`undefined` and `TileData[undefined] === 0` is false), and throws a
`TypeError` when `x` itself is out of range. -/
theorem isPassable_oob (w : World) (x y d : Int) (hwf : WFWorld w)
    (h : w.isValidTile x y = false) :
    w.isPassable x y d =
      (if 0 ≤ x ∧ x < (w.width : Int) then Except.ok false
       else Except.error ()) ∧
    w.isPassable x y d ≠ Except.ok true := by
  obtain ⟨hlen, hrows, -, -⟩ := hwf
  have hnv : ¬ (0 ≤ x ∧ x < (w.width : Int) ∧ 0 ≤ y ∧ y < (w.height : Int)) := by
    intro hc
    rw [(isValidTile_iff w x y).mpr hc] at h
    exact Bool.noConfusion h
  have hmain : w.isPassable x y d =
      (if 0 ≤ x ∧ x < (w.width : Int) then Except.ok false
       else Except.error ()) := by
    by_cases hx : 0 ≤ x ∧ x < (w.width : Int)
    · have hy : y < 0 ∨ (w.height : Int) ≤ y := by
        by_contra hy
        push_neg at hy
        exact hnv ⟨hx.1, hx.2, hy.1, hy.2⟩
      obtain ⟨row, hrow, hmem⟩ :=
        jsIndex_isSome w.tileMap x hx.1 (by rw [hlen]; exact hx.2)
      have hrlen : row.length = w.height := hrows row hmem
      have hyn : jsIndex row y = none := by
        rcases hy with hy | hy
        · exact jsIndex_neg row y hy
        · exact jsIndex_ge row y (by rw [hrlen]; exact hy)
      have hcp : w.checkPassage x y (dirBit d) = Except.ok false := by
        unfold World.checkPassage
        rw [hrow]
        show Except.ok (TileData (jsIndex row y) == some 0) = Except.ok false
        rw [hyn]
        rfl
      rw [if_pos hx]
      unfold World.isPassable
      rw [hcp]
      rfl
    · have hxn : jsIndex w.tileMap x = none := by
        rcases (show x < 0 ∨ (w.width : Int) ≤ x by omega) with hx' | hx'
        · exact jsIndex_neg w.tileMap x hx'
        · exact jsIndex_ge w.tileMap x (by rw [hlen]; exact hx')
      have hcp : w.checkPassage x y (dirBit d) = Except.error () := by
        unfold World.checkPassage
        rw [hxn]
      rw [if_neg hx]
      unfold World.isPassable
      rw [hcp]
      rfl
  refine ⟨hmain, ?_⟩
  rw [hmain]
  split <;> simp

/-- Claim C1, witness: a concrete well-formed 1×1 world; at in-range `x`
with out-of-range `y` the amended theorem yields `ok false`, at
out-of-range `x` it yields a thrown `TypeError`. -/
theorem isPassable_oob_witness :
    World.isPassable grassWorld 0 5 2 = Except.ok false ∧
    World.isPassable grassWorld (-2) 0 2 = Except.error () := by
  constructor
  · have h := (isPassable_oob grassWorld 0 5 2 (by decide) (by decide)).1
    rw [if_pos (by decide)] at h
    exact h
  · have h := (isPassable_oob grassWorld (-2) 0 2 (by decide) (by decide)).1
    rw [if_neg (by decide)] at h
    exact h

/-! ## Claim C10 -/

/-- Claim C10: for in-bounds coordinates the direction argument of
`isPassable` has no influence on the result — the bitmask computed from it
is passed to `checkPassage` and `checkObject`, neither of which reads its
`bit` parameter. (The proof is definitional: the unfolded body of
`isPassable` does not mention `d`.) -/
theorem isPassable_direction_independent (w : World) (x y d₁ d₂ : Int)
    (h : w.isValidTile x y = true) :
    w.isPassable x y d₁ = w.isPassable x y d₂ := rfl

/-- Claim C10, witness: concrete in-bounds coordinate, directions 2 (down)
and 8 (up). -/
theorem isPassable_direction_independent_witness :
    grassWorld.isValidTile 0 0 = true ∧
    World.isPassable grassWorld 0 0 2 = World.isPassable grassWorld 0 0 8 :=
  ⟨by decide, isPassable_direction_independent grassWorld 0 0 2 8 (by decide)⟩

/-! ## Claim C5 -/

/-- Claim C5, counterexample: with the configured idle-timeout value `0`,
the constructor line `ServerConfig.TIMEOUT_INTERVAL || 40` replaces the
falsy `0` by the default `40`, so `resetIdleTimeout` does schedule an
idle-timeout callback (40 000 ms out) — the claim says it never would. -/
theorem idleTimeout_zero_counterexample :
    resetIdleTimeout (effectiveTimeoutInterval 0) 0 none = some 40000 := by
  decide

/-- Claim C5, amended: idle timeout is disabled only for a negative
configured value; a configured value of zero is coerced to the default 40
by the `|| 40` fallback and therefore enables the timeout. For every
negative configured value, `resetIdleTimeout` never schedules a
callback. -/
theorem idleTimeout_negative_disabled (c now : Int) (old : Option Int)
    (h : c < 0) :
    resetIdleTimeout (effectiveTimeoutInterval c) now old = none := by
  unfold resetIdleTimeout effectiveTimeoutInterval
  rw [if_neg (show ¬ c = 0 by omega), if_neg (by omega)]

/-- Claim C5, witness: configured value `-1`, arbitrary clock and pending
timer. -/
theorem idleTimeout_negative_disabled_witness :
    resetIdleTimeout (effectiveTimeoutInterval (-1)) 100 (some 5) = none :=
  idleTimeout_negative_disabled (-1) 100 (some 5) (by decide)

/-! ## Claim C4 -/

/-- Claim C4, counterexample: an envelope with unrecognized type `9`
enqueues nothing, but the resulting connection state differs from the
original — `onReceivedInput` calls `resetIdleTimeout(socket)` before the
`switch`, so the idle-timeout timer is (re)scheduled even for a rejected
envelope, contradicting "no other server state is changed". -/
theorem onReceivedInput_counterexample :
    onReceivedInput 40 5 9 ⟨[], none, true⟩ ≠ ⟨[], none, true⟩ ∧
    (onReceivedInput 40 5 9 ⟨[], none, true⟩).queue = [] ∧
    (onReceivedInput 40 5 9 ⟨[], none, true⟩).idleDeadline = some 40005 := by
  decide

/-- Claim C4, amended: for an envelope whose type is not one of the four
recognized command types, `onReceivedInput` enqueues nothing, leaves the
connection open, and changes nothing except the idle-timeout timer, which
it resets (as it does for every inbound envelope, before parsing). -/
theorem onReceivedInput_unknown (ti now t : Int) (s : ConnState)
    (h : classifyCommand t = none) :
    (onReceivedInput ti now t s).queue = s.queue ∧
    (onReceivedInput ti now t s).connOpen = s.connOpen ∧
    (onReceivedInput ti now t s).idleDeadline =
      resetIdleTimeout ti now s.idleDeadline := by
  unfold onReceivedInput
  rw [h]
  exact ⟨rfl, rfl, rfl⟩

/-- Claim C4, witness: unrecognized type `7` against a concrete connection
state with one queued command. -/
theorem onReceivedInput_unknown_witness :
    classifyCommand 7 = none ∧
    (onReceivedInput 40 0 7 ⟨[CommandTag.move], some 3, true⟩).queue =
      [CommandTag.move] ∧
    (onReceivedInput 40 0 7 ⟨[CommandTag.move], some 3, true⟩).connOpen =
      true :=
  ⟨by decide,
   (onReceivedInput_unknown 40 0 7 ⟨[CommandTag.move], some 3, true⟩
      (by decide)).1,
   (onReceivedInput_unknown 40 0 7 ⟨[CommandTag.move], some 3, true⟩
      (by decide)).2.1⟩

/-! ## Claim C8 -/

/-- Claim C8: broadcasts happen only with a live connection and payloads
have the `{t, d}` shape, but the outgoing buffer is flushed
(`io.emit('update', …)`) on EVERY tick that has a live connection — here
two consecutive ticks from a state with one connection both emit — not at
most every other tick. The source computes `outgoingDelta` (twice the tick
interval) and comments "world data is sent 30 fps", but never uses it: the
claim (and the code's own comment) say one thing and the code does
another. -/
theorem broadcast_consecutive_flush :
    (gameTickStep ⟨1, [], 0, 7⟩).2 = some [⟨0, 7⟩] ∧
    (gameTickStep (gameTickStep ⟨1, [], 0, 7⟩).1).2 = some [⟨1, 7⟩] ∧
    (gameTickStep ⟨0, [], 0, 7⟩).2 = none := by
  decide

/-! ## Claim C2 -/

/-- Claim C2, counterexample: a Tree initialized with durability 1 grants
loot on the first interaction (durability reaches 0), and a second call of
`Tree.onInteraction` grants loot AGAIN — `this.durability <= 0` stays true
once durability is below zero, so nothing in the handler prevents a second
grant. (Inventory counts loot-grant events: each roll is 1.) -/
theorem tree_loot_counterexample :
    (Tree.interactRun ⟨1⟩ ⟨0⟩ (List.replicate 1 1)).2.inventory = 1 ∧
    (Tree.interactRun ⟨1⟩ ⟨0⟩ (List.replicate 2 1)).2.inventory = 2 := by
  decide

theorem interactRun_cons (t : Tree) (p : TPlayer) (r : Nat)
    (rolls : List Nat) :
    Tree.interactRun t p (r :: rolls) =
      Tree.interactRun (Tree.onInteraction t p r).1
        (Tree.onInteraction t p r).2 rolls := rfl

theorem interactRun_replicate (n : Nat) : ∀ (dur : Int) (i : Nat),
    1 ≤ dur → (n : Int) ≤ dur →
    (Tree.interactRun ⟨dur⟩ ⟨i⟩ (List.replicate n 1)).2.inventory =
      i + (if (n : Int) = dur then 1 else 0) := by
  induction n with
  | zero =>
    intro dur i h1 h2
    rw [if_neg (by omega)]
    rfl
  | succ n ih =>
    intro dur i h1 h2
    rw [List.replicate_succ, interactRun_cons]
    by_cases hd : dur = 1
    · subst hd
      have hn : n = 0 := by omega
      subst hn
      show (Tree.interactRun ⟨0⟩ ⟨i + 1⟩ (List.replicate 0 1)).2.inventory = _
      rw [if_pos (by decide)]
      rfl
    · have hstep : Tree.onInteraction ⟨dur⟩ ⟨i⟩ 1 = (⟨dur - 1⟩, ⟨i⟩) := by
        unfold Tree.onInteraction
        dsimp only
        rw [if_neg (by omega)]
      rw [hstep]
      dsimp only
      rw [ih (dur - 1) i (by omega) (by omega)]
      congr 1
      by_cases hnd : (n : Int) = dur - 1
      · rw [if_pos hnd, if_pos (by omega)]
      · rw [if_neg hnd, if_neg (by omega)]

/-- Claim C2, amended: for a Tree whose durability is initialized to
`d ≥ 1`, among the first `d` calls of `Tree.onInteraction` loot is granted
on the `d`-th call and only on that call (calls `1, …, d-1` grant
nothing). The handler itself grants again on every call past the `d`-th;
the exactly-once guarantee relies on the tree being removed from the world
once durability reaches 0, not on the handler. -/
theorem tree_loot_amended (d : Int) (n : Nat) (h1 : 1 ≤ d)
    (h2 : (n : Int) ≤ d) :
    (Tree.interactRun ⟨d⟩ ⟨0⟩ (List.replicate n 1)).2.inventory =
      if (n : Int) = d then 1 else 0 := by
  simpa using interactRun_replicate n d 0 h1 h2

/-- Claim C2, witness: durability 3; after 2 interactions no loot, the 3rd
interaction grants exactly once. -/
theorem tree_loot_amended_witness :
    (Tree.interactRun ⟨3⟩ ⟨0⟩ (List.replicate 2 1)).2.inventory = 0 ∧
    (Tree.interactRun ⟨3⟩ ⟨0⟩ (List.replicate 3 1)).2.inventory = 1 := by
  constructor
  · have h := tree_loot_amended 3 2 (by decide) (by decide)
    rw [if_neg (by decide)] at h
    exact h
  · have h := tree_loot_amended 3 3 (by decide) (by decide)
    rw [if_pos (by decide)] at h
    exact h

/-! ## Claim C3 -/

theorem foldl_processInput {α : Type} (cmds : List α) : ∀ w : List α,
    cmds.foldl processInput w = w ++ cmds := by
  induction cmds with
  | nil => intro w; simp
  | cons c cs ih =>
    intro w
    rw [List.foldl_cons, ih (processInput w c)]
    simp [processInput]

theorem foldl_queues {α : Type} (qs : List (Nat × List α)) : ∀ w : List α,
    qs.foldl (fun w q => q.2.foldl processInput w) w =
      w ++ qs.flatMap Prod.snd := by
  induction qs with
  | nil => intro w; simp
  | cons q qs ih =>
    intro w
    rw [List.foldl_cons, ih (q.2.foldl processInput w), foldl_processInput]
    simp

theorem bind_snd_cleared {α : Type} (qs : List (Nat × List α)) :
    (qs.map (fun q => (q.1, ([] : List α)))).flatMap Prod.snd = [] := by
  induction qs with
  | nil => rfl
  | cons q qs ih => simp [ih]

/-- Claim C3: one `Server.step` drain applies exactly the pending commands,
per-queue in enqueue order (queues in map order), leaves every input queue
empty, and a second drain before any new enqueue applies zero commands
(the applied trace does not grow). -/
theorem serverStep_drains {α : Type} (s : SimServer α) :
    (serverStep s).applied = s.applied ++ s.playerInputQueues.flatMap Prod.snd ∧
    (∀ q ∈ (serverStep s).playerInputQueues, q.2 = ([] : List α)) ∧
    (serverStep (serverStep s)).applied = (serverStep s).applied := by
  refine ⟨foldl_queues s.playerInputQueues s.applied, ?_, ?_⟩
  · intro q hq
    rw [serverStep] at hq
    simp only [List.mem_map] at hq
    obtain ⟨p, -, rfl⟩ := hq
    rfl
  · show (serverStep s).playerInputQueues.foldl
        (fun w q => q.2.foldl processInput w) (serverStep s).applied =
      (serverStep s).applied
    rw [foldl_queues]
    show (serverStep s).applied ++
        (s.playerInputQueues.map (fun q => (q.1, []))).flatMap Prod.snd =
      (serverStep s).applied
    rw [bind_snd_cleared]
    simp

/-! ## Claim C9 -/

theorem runEvents_ids (evs : List NetEvent) : ∀ s : RegServer,
    (runEvents s evs).2 =
      List.range' (s.lastPlayerID + 1) (countConnects evs) := by
  induction evs with
  | nil => intro s; rfl
  | cons e evs ih =>
    intro s
    cases e with
    | connect sid =>
      show (onPlayerConnected s sid).2 ::
          (runEvents (onPlayerConnected s sid).1 evs).2 =
        List.range' (s.lastPlayerID + 1) (countConnects evs + 1)
      rw [ih (onPlayerConnected s sid).1, List.range'_succ]
      rfl
    | disconnect sid =>
      show (runEvents (onPlayerDisconnected s sid) evs).2 =
        List.range' (s.lastPlayerID + 1) (countConnects evs)
      rw [ih (onPlayerDisconnected s sid)]
      rfl

/-- Claim C9: for every interleaving of connections and disconnections
starting from the freshly constructed server (`lastPlayerID = 0`), the
sequence of entity ids handed out by `onPlayerConnected` is
`1, 2, …, n` — the n-th connection gets id n: ids are positive,
monotonically increasing, unique, and never reused (disconnections leave
`lastPlayerID` untouched); in particular the first client gets id 1. -/
theorem playerIds_sequential (evs : List NetEvent) :
    (runEvents initialRegServer evs).2 =
      List.range' 1 (countConnects evs) := by
  have h := runEvents_ids evs initialRegServer
  simpa using h

/-! ## Claim C6 -/

theorem spawnLoop_allWater (n : Nat) : ∀ i : Nat,
    spawnLoop allWaterWorld (fun _ => (0, 0)) i n = Except.ok none := by
  induction n with
  | zero => intro i; rfl
  | succ n ih =>
    intro i
    show (World.isPassable allWaterWorld 0 0 2).bind
        (fun p => if p then pure (some ((0 : Int), (0 : Int)))
          else spawnLoop allWaterWorld (fun _ => (0, 0)) (i + 1) n) =
      Except.ok none
    rw [show World.isPassable allWaterWorld 0 0 2 = Except.ok false
        from by decide]
    show spawnLoop allWaterWorld (fun _ => (0, 0)) (i + 1) n = Except.ok none
    exact ih (i + 1)

/-- Claim C6, counterexample: the claim says the spawn search is a bounded
retry that terminates on every world state; but the code is an unbounded
`do … while (!isPassable(…))`, and on a world with no passable tile (a 2×2
all-water world) with a draw sequence that keeps sampling `(0, 0)` the
loop never exits: after any number of iterations it is still looping.
There is no retry bound and no `NoSpaceAvailable` failure path in the
source. -/
theorem spawn_counterexample :
    ¬ SpawnTerminates allWaterWorld (fun _ => (0, 0)) := by
  intro h
  obtain ⟨n, hn⟩ := h
  exact hn (spawnLoop_allWater n 0)

theorem spawnLoop_stops (w : World) (picks : Nat → Int × Int) :
    ∀ (k start : Nat),
    w.isPassable (picks (start + k)).1 (picks (start + k)).2 2 =
      Except.ok true →
    spawnLoop w picks start (k + 1) ≠ Except.ok none := by
  intro k
  induction k with
  | zero =>
    intro start h
    show (w.isPassable (picks start).1 (picks start).2 2).bind _ ≠
      Except.ok none
    rw [show picks start = picks (start + 0) from rfl, h]
    simp [Except.bind, pure, Except.pure]
  | succ k ih =>
    intro start h
    show (w.isPassable (picks start).1 (picks start).2 2).bind
        (fun p => if p then pure (some ((picks start).1, (picks start).2))
          else spawnLoop w picks (start + 1) (k + 1)) ≠
      Except.ok none
    cases hp : w.isPassable (picks start).1 (picks start).2 2 with
    | error e => simp [Except.bind]
    | ok b =>
      cases b with
      | true => simp [Except.bind, pure, Except.pure]
      | false =>
        show spawnLoop w picks (start + 1) (k + 1) ≠ Except.ok none
        apply ih (start + 1)
        rw [show start + 1 + k = start + (k + 1) by omega]
        exact h

/-- Claim C6, amended: the spawn search of `onPlayerJoinWorld` has no
retry bound and no `NoSpaceAvailable` failure; it terminates precisely
when the sampling finds a passable tile: if some draw in the random
sequence hits a passable tile (or `isPassable` throws), the loop stops
within that many iterations, and on a world where no sampled tile is
passable it loops forever. -/
theorem spawn_terminates_amended (w : World) (picks : Nat → Int × Int)
    (i : Nat)
    (h : w.isPassable (picks i).1 (picks i).2 2 = Except.ok true) :
    SpawnTerminates w picks :=
  ⟨i + 1, spawnLoop_stops w picks i 0 (by simpa using h)⟩

/-- Claim C6, witness: on a 1×1 grass world with the draw sequence
constantly `(0, 0)` the spawn search terminates. -/
theorem spawn_terminates_amended_witness :
    SpawnTerminates grassWorld (fun _ => (0, 0)) :=
  spawn_terminates_amended grassWorld (fun _ => (0, 0)) 0 (by decide)

/-! ## Claim C7 -/

/-- Claim C7: `changeTile(x, y, tileId)` on a well-formed world: for a
valid in-bounds `(x, y)` the cell at `(x, y)` is overwritten with
`tileId`, every other cell is unchanged, and the emitted `worldUpdate`
diff is exactly `[[x, y, tileId]]`; for an out-of-bounds `(x, y)` the
error is logged, the world is returned entirely unchanged and nothing is
emitted. -/
theorem changeTile_spec (w : World) (x y : Int) (t : Nat)
    (hwf : WFWorld w) :
    (w.isValidTile x y = true →
      (w.changeTile x y t).1.tileAt x y = some t ∧
      (∀ x' y' : Int, ¬(x' = x ∧ y' = y) →
        (w.changeTile x y t).1.tileAt x' y' = w.tileAt x' y') ∧
      (w.changeTile x y t).2 = some [⟨x, y, t⟩]) ∧
    (w.isValidTile x y = false → w.changeTile x y t = (w, none)) := by
  obtain ⟨hlen, hrows, -, -⟩ := hwf
  constructor
  · intro hv
    obtain ⟨hx0, hx1, hy0, hy1⟩ := (isValidTile_iff w x y).mp hv
    obtain ⟨row, hrow, hmem⟩ :=
      jsIndex_isSome w.tileMap x hx0 (by rw [hlen]; exact hx1)
    have hrowget : w.tileMap.get? x.toNat = some row := by
      have h' := hrow
      unfold jsIndex at h'
      rwa [if_neg (by omega)] at h'
    have hrlen : row.length = w.height := hrows row hmem
    have hxlt : x.toNat < w.tileMap.length := by omega
    have hylt : y.toNat < row.length := by omega
    have hct : w.changeTile x y t =
        ({ w with tileMap :=
            w.tileMap.set x.toNat (row.set y.toNat t) }, some [⟨x, y, t⟩]) := by
      unfold World.changeTile
      rw [hv]
      rw [hrowget]
      rfl
    rw [hct]
    refine ⟨?_, ?_, rfl⟩
    · show (jsIndex (w.tileMap.set x.toNat (row.set y.toNat t)) x).bind
          (fun r => jsIndex r y) = some t
      rw [jsIndex_set_self w.tileMap x.toNat (row.set y.toNat t) x
          (by omega) hxlt]
      show jsIndex (row.set y.toNat t) y = some t
      exact jsIndex_set_self row y.toNat t y (by omega) hylt
    · intro x' y' hne
      show (jsIndex (w.tileMap.set x.toNat (row.set y.toNat t)) x').bind
          (fun r => jsIndex r y') = w.tileAt x' y'
      by_cases hxx : x' = x
      · have hyy : y' ≠ y := fun hc => hne ⟨hxx, hc⟩
        rw [jsIndex_set_self w.tileMap x.toNat (row.set y.toNat t) x'
            (by omega) hxlt]
        unfold World.tileAt
        rw [hxx, hrow]
        show jsIndex (row.set y.toNat t) y' = jsIndex row y'
        by_cases hy' : 0 ≤ y'
        · exact jsIndex_set_ne row y.toNat t y' (by omega)
        · rw [jsIndex_neg _ y' (by omega), jsIndex_neg _ y' (by omega)]
      · rw [jsIndex_set_ne w.tileMap x.toNat (row.set y.toNat t) x'
            (by omega)]
        rfl
  · intro hv
    unfold World.changeTile
    rw [hv]
    rfl

/-- Claim C7, witness: a concrete well-formed 2×2 world; a valid change at
`(0, 1)` writes the cell, leaves `(1, 1)` alone and emits exactly that
diff; an invalid change at `(5, 1)` is a logged no-op. -/
theorem changeTile_spec_witness :
    (World.changeTile allWaterWorld 0 1 0).1.tileAt 0 1 = some 0 ∧
    (World.changeTile allWaterWorld 0 1 0).1.tileAt 1 1 =
      allWaterWorld.tileAt 1 1 ∧
    (World.changeTile allWaterWorld 0 1 0).2 = some [⟨0, 1, 0⟩] ∧
    World.changeTile allWaterWorld 5 1 0 = (allWaterWorld, none) := by
  refine ⟨?_, ?_, ?_, ?_⟩
  · exact ((changeTile_spec allWaterWorld 0 1 0 (by decide)).1 (by decide)).1
  · exact ((changeTile_spec allWaterWorld 0 1 0 (by decide)).1
      (by decide)).2.1 1 1 (by simp)
  · exact ((changeTile_spec allWaterWorld 0 1 0 (by decide)).1
      (by decide)).2.2
  · exact (changeTile_spec allWaterWorld 5 1 0 (by decide)).2 (by decide)

end Alterrain
